import Mathlib

/-!
Verification of the jerm-tui interactive session engine against its
specification.  Each Rust source function used by the claims is shallowly
embedded as an executable Lean definition (strings as `List Char` where
character-level scanning is involved, machine integers as `Nat`), and the
spec claims are settled as theorems about those definitions.
-/

namespace JermTui

/- ## Display width (View Layout, src/ui/terminal.rs) -/

/-- Modelled from the spec: the display width of a character — "the number of
terminal columns a character occupies (0, 1, or 2)" — standing in for the
external `unicode_width` table consumed by `wrap_line` via
`ch.width().unwrap_or(0)` (double for East-Asian-wide characters, zero for
combining marks and controls, one otherwise).  The table is restricted to
the ranges exercised by the theorems below. -/
def charWidth (c : Char) : Nat :=
  if c.toNat < 0x20 then 0
  else if c.toNat < 0x7f then 1
  else if c.toNat < 0xa0 then 0
  else if 0x300 ≤ c.toNat ∧ c.toNat ≤ 0x36f then 0
  else if (0x1100 ≤ c.toNat ∧ c.toNat ≤ 0x115f) ∨ (0x2e80 ≤ c.toNat ∧ c.toNat ≤ 0x303e) ∨
          (0x3041 ≤ c.toNat ∧ c.toNat ≤ 0x33ff) ∨ (0x4e00 ≤ c.toNat ∧ c.toNat ≤ 0x9fff) ∨
          (0xac00 ≤ c.toNat ∧ c.toNat ≤ 0xd7a3) ∨ (0xf900 ≤ c.toNat ∧ c.toNat ≤ 0xfaff) ∨
          (0xff00 ≤ c.toNat ∧ c.toNat ≤ 0xff60) ∨ (0xffe0 ≤ c.toNat ∧ c.toNat ≤ 0xffe6) then 2
  else 1

/-- Cumulative display width of a sequence of characters
(`UnicodeWidthStr::width`). -/
def strWidth (l : List Char) : Nat :=
  (l.map charWidth).sum

/-- Embeds `wrap_line`'s scan loop (src/ui/terminal.rs:24-36): `cur` is the
`current_line` accumulator and `cw` its cumulative width. -/
def wrapLineAux (width : Nat) : List Char → List Char → Nat → List (List Char)
  | [], cur, _ => [cur]
  | c :: cs, cur, cw =>
    if cw + charWidth c > width then
      cur :: wrapLineAux width cs [c] (charWidth c)
    else
      wrapLineAux width cs (cur ++ [c]) (cw + charWidth c)

/-- Embeds `wrap_line` (src/ui/terminal.rs:15-41): split a logical line into
visual rows of cumulative display width at most `width`. -/
def wrapLine (line : List Char) (width : Nat) : List (List Char) :=
  if width = 0 then [[]]
  else wrapLineAux width line [] 0

/-- The wrap scan state after consuming a prefix of the line: number of
already-pushed (completed) visual rows, and the cumulative width of the row
still being filled.  This is `wrap_line`'s loop state, recorded instead of the
rows themselves. -/
def wrapPos (width : Nat) : List Char → Nat → Nat → Nat × Nat
  | [], rows, cw => (rows, cw)
  | c :: cs, rows, cw =>
    if cw + charWidth c > width then
      wrapPos width cs (rows + 1) (charWidth c)
    else
      wrapPos width cs rows (cw + charWidth c)

/-- Where the edit cursor lands under `wrap_line`'s own layout: the cell in
which the next (single-column) character would be placed after laying out the
prefix strictly before the cursor.  Returns (row, column) relative to the
start of the wrapped block. -/
def cursorLanding (width : Nat) (beforeCursor : List Char) : Nat × Nat :=
  if (wrapPos width beforeCursor 0 0).2 + 1 > width then
    ((wrapPos width beforeCursor 0 0).1 + 1, 0)
  else
    wrapPos width beforeCursor 0 0

/-- Embeds the cursor-mapping computation of `render_terminal`
(src/ui/terminal.rs:107-119): display width of the prompt plus the input
strictly before the cursor (a character index), divided by `width` for the row
offset within the input block. -/
def computedCursorRow (prompt input : List Char) (cursorPos width : Nat) : Nat :=
  (strWidth prompt + strWidth (input.take cursorPos)) / width

/-- The column counterpart of `computedCursorRow`
(src/ui/terminal.rs:119). -/
def computedCursorCol (prompt input : List Char) (cursorPos width : Nat) : Nat :=
  (strWidth prompt + strWidth (input.take cursorPos)) % width

/- ## Tokenizer (src/highlight/tokenizer.rs) -/

/-- Models Rust `char::is_whitespace` (the Unicode White_Space property),
used by the tokenizer and by `str::trim` / `splitn` in the parser. -/
def isWhitespaceChar (c : Char) : Bool :=
  c.toNat = 0x20 || (0x9 ≤ c.toNat && c.toNat ≤ 0xd) || c.toNat = 0x85 ||
  c.toNat = 0xa0 || c.toNat = 0x1680 ||
  (0x2000 ≤ c.toNat && c.toNat ≤ 0x200a) || c.toNat = 0x2028 ||
  c.toNat = 0x2029 || c.toNat = 0x202f || c.toNat = 0x205f || c.toNat = 0x3000

/-- The characters `try_parse_operator` accepts
(src/highlight/tokenizer.rs:115-151). -/
def isOperatorStart (c : Char) : Bool :=
  c = '|' || c = '&' || c = '>' || c = '<' || c = ';'

/-- The characters that end a word in `parse_word`
(src/highlight/tokenizer.rs:158-168). -/
def isWordBreakChar (c : Char) : Bool :=
  isWhitespaceChar c || isOperatorStart c || c = '"' || c = '\''

/-- Token type tags (src/highlight/tokenizer.rs:10-27). -/
inductive TokenType where
  | Command
  | Flag
  | Path
  | String
  | Number
  | Operator
  | Whitespace
  | Text
  deriving DecidableEq, Repr

/-- A token: its text and its type (src/highlight/tokenizer.rs:31-34). -/
structure Token where
  text : String
  tokenType : TokenType
  deriving DecidableEq, Repr

/-- The quoted-run scan of `tokenize` (src/highlight/tokenizer.rs:84-89):
consume characters through the first occurrence of the opening quote `q`
(or to the end of input), returning (consumed, remaining). -/
def consumeQuoted (q : Char) : List Char → List Char × List Char
  | [] => ([], [])
  | x :: xs =>
    if x = q then ([x], xs)
    else (x :: (consumeQuoted q xs).1, (consumeQuoted q xs).2)

/-- Embeds `classify_word` (src/highlight/tokenizer.rs:176-205). -/
def classifyWord (word : List Char) (expectCmd : Bool) : TokenType :=
  if word.take 2 = ['-', '-'] then TokenType.Flag
  else if word.head? = some '-' ∧ 1 < word.length then
    if (word.drop 1).all (fun c => c.isDigit || c = '.') then TokenType.Number
    else TokenType.Flag
  else if word.contains '/' || word.take 2 = ['.', '/'] || word.take 2 = ['~', '/'] then
    TokenType.Path
  else if word.all (fun c => c.isDigit || c = '.') && !word.isEmpty then
    TokenType.Number
  else if expectCmd then TokenType.Command
  else TokenType.Text

/-- Embeds the scan loop of `Tokenizer::tokenize`
(src/highlight/tokenizer.rs:51-108); the boolean is the `expect_command`
flag. -/
def tokenizeAux : List Char → Bool → List Token
  | [], _ => []
  | c :: cs, expectCmd =>
    if hws : isWhitespaceChar c then
      Token.mk (String.mk ((c :: cs).takeWhile isWhitespaceChar)) TokenType.Whitespace ::
        tokenizeAux ((c :: cs).dropWhile isWhitespaceChar) expectCmd
    else if hpipe : c = '|' then
      if cs.head? = some '|' then
        Token.mk "||" TokenType.Operator :: tokenizeAux cs.tail true
      else Token.mk "|" TokenType.Operator :: tokenizeAux cs true
    else if hamp : c = '&' then
      if cs.head? = some '&' then
        Token.mk "&&" TokenType.Operator :: tokenizeAux cs.tail true
      else Token.mk "&" TokenType.Operator :: tokenizeAux cs true
    else if hgt : c = '>' then
      if cs.head? = some '>' then
        Token.mk ">>" TokenType.Operator :: tokenizeAux cs.tail false
      else Token.mk ">" TokenType.Operator :: tokenizeAux cs false
    else if hlt : c = '<' then
      Token.mk "<" TokenType.Operator :: tokenizeAux cs false
    else if hsemi : c = ';' then
      Token.mk ";" TokenType.Operator :: tokenizeAux cs true
    else if hquote : c = '"' ∨ c = '\'' then
      Token.mk (String.mk (c :: (consumeQuoted c cs).1)) TokenType.String ::
        tokenizeAux (consumeQuoted c cs).2 false
    else
      Token.mk (String.mk ((c :: cs).takeWhile (fun x => !isWordBreakChar x)))
          (classifyWord ((c :: cs).takeWhile (fun x => !isWordBreakChar x)) expectCmd) ::
        tokenizeAux ((c :: cs).dropWhile (fun x => !isWordBreakChar x)) false
termination_by l _ => l.length
decreasing_by
  · simp only [List.dropWhile_cons, hws, if_true, List.length_cons]
    have := (List.dropWhile_sublist (l := cs) isWhitespaceChar).length_le
    omega
  · simp only [List.length_tail, List.length_cons]; omega
  · simp [List.length_cons]
  · simp only [List.length_tail, List.length_cons]; omega
  · simp [List.length_cons]
  · simp only [List.length_tail, List.length_cons]; omega
  · simp [List.length_cons]
  · simp [List.length_cons]
  · simp [List.length_cons]
  · have key : ∀ (l : List Char), (consumeQuoted c l).2.length ≤ l.length := by
      intro l
      induction l with
      | nil => simp [consumeQuoted]
      | cons x xs ih =>
        unfold consumeQuoted
        split
        · simp
        · simpa using Nat.le_succ_of_le ih
    have := key cs
    simp only [List.length_cons]
    omega
  · have hc : (fun x => !isWordBreakChar x) c = true := by
      simp only [isWordBreakChar, isOperatorStart, Bool.not_eq_true']
      simp only [Bool.or_eq_false_iff, decide_eq_false_iff_not]
      refine ⟨⟨⟨by simpa using hws, ?_⟩, fun h => hquote (Or.inl h)⟩,
        fun h => hquote (Or.inr h)⟩
      simp [hpipe, hamp, hgt, hlt, hsemi]
    simp only [List.dropWhile_cons, hc, if_true, List.length_cons]
    have := (List.dropWhile_sublist (l := cs) (fun x => !isWordBreakChar x)).length_le
    omega

/-- Embeds `Tokenizer::tokenize` (src/highlight/tokenizer.rs:51): the
`expect_command` flag starts true. -/
def tokenize (input : String) : List Token :=
  tokenizeAux input.data true

/-- Concatenation of the text fields of a token list, in order. -/
def concatTokens (ts : List Token) : String :=
  ts.foldr (fun t acc => t.text ++ acc) ""

/-- Models Rust `str::starts_with` (and `String::startsWith`) as a
structural prefix test on the character sequences. -/
def strStartsWith (s pre : String) : Bool :=
  pre.data.isPrefixOf s.data

/-- Dropping the first `n` characters of a string (the `replacen` tail in
`prompt_spans`: the part of the directory after the home prefix). -/
def strDrop (s : String) (n : Nat) : String :=
  String.mk (s.data.drop n)

/- ## Command classifier (src/shell/parser.rs) -/

/-- Models Rust `str::trim`: strip leading and trailing whitespace. -/
def trimChars (l : List Char) : List Char :=
  ((l.dropWhile isWhitespaceChar).reverse.dropWhile isWhitespaceChar).reverse

/-- Models `trimmed.splitn(2, char::is_whitespace)`
(src/shell/parser.rs:30-32): the head up to the first whitespace character
and, when one exists, the remainder after that single character. -/
def splitHead (l : List Char) : List Char × Option (List Char) :=
  (l.takeWhile (fun c => !isWhitespaceChar c),
   match l.dropWhile (fun c => !isWhitespaceChar c) with
   | [] => none
   | _ :: rest => some rest)

/-- The classifier's intents (src/shell/parser.rs:3-20). -/
inductive ParsedCommand where
  | Empty
  | Cd (path : Option String)
  | CdList
  | Clear
  | Exit
  | JermSave
  | JermGoto
  | Shell (cmd : String)
  deriving DecidableEq, Repr

/-- The `match command` dispatch of `parse_command`
(src/shell/parser.rs:34-48); `args` is already trimmed. -/
def dispatchCommand (command : String) (args : Option String)
    (trimmed : String) : ParsedCommand :=
  if command = "cd" then
    match args with
    | some a =>
      if a = "-list" ∨ a = "--list" then ParsedCommand.CdList
      else ParsedCommand.Cd (some a)
    | none => ParsedCommand.Cd none
  else if command = "clear" then ParsedCommand.Clear
  else if command = "exit" ∨ command = "quit" then ParsedCommand.Exit
  else if command = "jerm" then
    match args with
    | some a =>
      if a = "save" then ParsedCommand.JermSave
      else if a = "goto" then ParsedCommand.JermGoto
      else ParsedCommand.Shell trimmed
    | none => ParsedCommand.Shell trimmed
  else ParsedCommand.Shell trimmed

/-- `parse_command` applied to the non-empty trimmed line `t`. -/
def parseTrimmed (t : List Char) : ParsedCommand :=
  dispatchCommand (String.mk (splitHead t).1)
    (((splitHead t).2).map (fun a => String.mk (trimChars a)))
    (String.mk t)

/-- Embeds `parse_command` (src/shell/parser.rs:23-49). -/
def parse_command (input : String) : ParsedCommand :=
  if trimChars input.data = [] then ParsedCommand.Empty
  else parseTrimmed (trimChars input.data)

/- ## Relative time label (src/shortcuts/storage.rs) -/

/-- Embeds `Shortcut::time_ago` (src/shortcuts/storage.rs:65-96) as a
function of the elapsed time in seconds since last access
(`chrono::Duration::num_minutes`/`num_hours`/`num_days` floor-divide the
total seconds). -/
def timeAgo (seconds : Nat) : String :=
  if seconds < 60 then "now"
  else if seconds / 60 < 60 then toString (seconds / 60) ++ "m"
  else if seconds / 3600 < 24 then toString (seconds / 3600) ++ "h"
  else if seconds / 86400 < 7 then toString (seconds / 86400) ++ "d"
  else if seconds / 86400 / 7 < 4 then toString (seconds / 86400 / 7) ++ "w"
  else toString (max (seconds / 86400 / 30) 1) ++ "mo"

/- ## Directory browser (src/navigation/directory.rs) -/

/-- A directory-listing entry (src/navigation/directory.rs:6-13). -/
structure DirEntry where
  name : String
  path : String
  is_dir : Bool
  deriving DecidableEq, Repr

/-- Models `std::path::Path::parent` for slash-separated paths: `none` at
the filesystem root (or for the empty path), otherwise the path with its
last component removed ("/a" ↦ "/", "a/b" ↦ "a", "a" ↦ ""). -/
def pathParent (p : String) : Option String :=
  if p.data = [] ∨ p.data = ['/'] then none
  else
    match p.data.reverse.dropWhile (fun c => c ≠ '/') with
    | [] => some ""
    | ['/'] => some "/"
    | _ :: rest => some (String.mk rest.reverse)

/-- The browser state (src/navigation/directory.rs:17-26). -/
structure NavigationState where
  current_path : String
  entries : List DirEntry
  selected_index : Nat
  scroll_offset : Nat
  deriving DecidableEq, Repr

/-- `NavigationState::new` (src/navigation/directory.rs:30-37). -/
def NavigationState.new : NavigationState :=
  { current_path := "", entries := [], selected_index := 0, scroll_offset := 0 }

/-- The entry list built by `refresh_entries`
(src/navigation/directory.rs:49-88): a ".." entry referencing the parent
when one exists, then the listed subdirectories — directories only, hidden
names skipped, sorted case-insensitively by name.  The filesystem read is
the collaborator `readDir`: `none` models `fs::read_dir` failure (an
unreadable directory yields no listed entries), `some raw` its raw
listing. -/
def listedEntries (currentPath : String)
    (readDir : Option (List DirEntry)) : List DirEntry :=
  (match pathParent currentPath with
   | some par => [{ name := "..", path := par, is_dir := true }]
   | none => []) ++
  (match readDir with
   | some raw =>
     (raw.filter (fun e => e.is_dir && !strStartsWith e.name ".")).mergeSort
       (fun a b => decide (a.name.toLower ≤ b.name.toLower))
   | none => [])

/-- Embeds `refresh_entries` (src/navigation/directory.rs:48-94): rebuild
the entry list and clamp the selection to the last index when it is out of
bounds (saturating at 0 on an empty list). -/
def NavigationState.refresh_entries (s : NavigationState)
    (readDir : Option (List DirEntry)) : NavigationState :=
  { s with
    entries := listedEntries s.current_path readDir,
    selected_index :=
      if s.selected_index ≥ (listedEntries s.current_path readDir).length then
        (listedEntries s.current_path readDir).length - 1
      else s.selected_index }

/-- `start_navigation` (src/navigation/directory.rs:40-45). -/
def NavigationState.start_navigation (s : NavigationState) (path : String)
    (readDir : Option (List DirEntry)) : NavigationState :=
  NavigationState.refresh_entries
    { s with current_path := path, selected_index := 0, scroll_offset := 0 }
    readDir

/-- `move_up` (src/navigation/directory.rs:97-106). -/
def NavigationState.move_up (s : NavigationState) : NavigationState :=
  if s.selected_index > 0 then
    if s.selected_index - 1 < s.scroll_offset then
      { s with selected_index := s.selected_index - 1,
               scroll_offset := s.selected_index - 1 }
    else { s with selected_index := s.selected_index - 1 }
  else s

/-- `move_down` (src/navigation/directory.rs:109-113). -/
def NavigationState.move_down (s : NavigationState) : NavigationState :=
  if s.selected_index < s.entries.length - 1 then
    { s with selected_index := s.selected_index + 1 }
  else s

/-- `adjust_scroll` (src/navigation/directory.rs:116-122). -/
def NavigationState.adjust_scroll (s : NavigationState)
    (visible_height : Nat) : NavigationState :=
  if s.selected_index ≥ s.scroll_offset + visible_height then
    { s with scroll_offset := s.selected_index - (visible_height - 1) }
  else if s.selected_index < s.scroll_offset then
    { s with scroll_offset := s.selected_index }
  else s

/-- `enter_selected` (src/navigation/directory.rs:125-134). -/
def NavigationState.enter_selected (s : NavigationState)
    (readDir : Option (List DirEntry)) : NavigationState :=
  match s.entries.get? s.selected_index with
  | some e =>
    if e.is_dir && e.name ≠ ".." then
      NavigationState.refresh_entries
        { s with current_path := e.path, selected_index := 0,
                 scroll_offset := 0 } readDir
    else s
  | none => s

/-- `go_up` (src/navigation/directory.rs:137-144). -/
def NavigationState.go_up (s : NavigationState)
    (readDir : Option (List DirEntry)) : NavigationState :=
  match pathParent s.current_path with
  | some par =>
    NavigationState.refresh_entries
      { s with current_path := par, selected_index := 0, scroll_offset := 0 }
      readDir
  | none => s

/-- `get_selected_path` (src/navigation/directory.rs:147-151). -/
def NavigationState.get_selected_path (s : NavigationState) : Option String :=
  (s.entries.get? s.selected_index).map (fun e => e.path)

/-- One browser operation, carrying the directory listing the filesystem
collaborator returns for the operations that re-list. -/
inductive NavOp where
  | moveUp
  | moveDown
  | adjustScroll (visible_height : Nat)
  | refresh (readDir : Option (List DirEntry))
  | enterSelected (readDir : Option (List DirEntry))
  | goUp (readDir : Option (List DirEntry))

/-- Apply one browser operation. -/
def navStep (op : NavOp) (s : NavigationState) : NavigationState :=
  match op with
  | NavOp.moveUp => s.move_up
  | NavOp.moveDown => s.move_down
  | NavOp.adjustScroll h => s.adjust_scroll h
  | NavOp.refresh rd => s.refresh_entries rd
  | NavOp.enterSelected rd => s.enter_selected rd
  | NavOp.goUp rd => s.go_up rd

/-- The selection-bound invariant of §3: the selected index is within
`[0, entries.length - 1]` when the entry list is non-empty and is `0` when
it is empty. -/
def selInv (s : NavigationState) : Prop :=
  (s.entries.length = 0 → s.selected_index = 0) ∧
  (0 < s.entries.length → s.selected_index < s.entries.length)

instance (s : NavigationState) : Decidable (selInv s) := by
  unfold selInv; infer_instance

/- ## Byte-indexed string edits (Rust `String::insert`/`remove`) -/

/-- The UTF-8 encoded length of a character (`char::len_utf8`). -/
def utf8Len (c : Char) : Nat :=
  if c.toNat < 0x80 then 1
  else if c.toNat < 0x800 then 2
  else if c.toNat < 0x10000 then 3
  else 4

/-- The UTF-8 byte length of a string (`String::len` in Rust). -/
def byteLen (l : List Char) : Nat :=
  (l.map utf8Len).sum

/-- Models `String::insert(idx, c)`: `idx` is a byte index; `none` models
the panic raised when `idx` is not a character boundary or exceeds the
length. -/
def insertAtByteIdx (l : List Char) (i : Nat) (c : Char) :
    Option (List Char) :=
  if i = 0 then some (c :: l)
  else
    match l with
    | [] => none
    | x :: xs =>
      if i < utf8Len x then none
      else (insertAtByteIdx xs (i - utf8Len x) c).map (fun r => x :: r)

/-- Models `String::remove(idx)` restricted to its effect on the buffer:
`idx` is a byte index; `none` models the panic raised when `idx` is not a
character boundary or is out of bounds. -/
def removeAtByteIdx (l : List Char) (i : Nat) : Option (List Char) :=
  match l with
  | [] => none
  | x :: xs =>
    if i = 0 then some xs
    else if i < utf8Len x then none
    else (removeAtByteIdx xs (i - utf8Len x)).map (fun r => x :: r)

/- ## Git worker messages and status (src/git/status.rs) -/

/-- Repository status snapshot (src/git/status.rs:8-14). -/
structure GitStatus where
  branch : String
  is_detached : Bool
  is_dirty : Bool
  ahead : Nat
  behind : Nat
  deriving DecidableEq, Repr

/-- Channel messages between session and git worker
(src/git/status.rs:27-31). -/
inductive GitMessage where
  | UpdateStatus (dir : String) (with_fetch : Bool)
  | StatusUpdate (status : Option GitStatus)
  | Shutdown
  deriving DecidableEq, Repr

/- ## Bookmarks (src/shortcuts/storage.rs, src/shortcuts/manager.rs) -/

/-- A directory shortcut (src/shortcuts/storage.rs:23-30); timestamps in
seconds. -/
structure Shortcut where
  path : String
  last_accessed : Nat
  created_at : Nat
  deriving DecidableEq, Repr

/-- `ShortcutManager::get_shortcuts` (src/shortcuts/manager.rs:18-22): the
stored list sorted by last-accessed time, most recent first (a stable
sort, like Rust `sort_by`). -/
def get_shortcuts (l : List Shortcut) : List Shortcut :=
  l.mergeSort (fun a b => decide (b.last_accessed ≤ a.last_accessed))

/-- `ShortcutManager::get_shortcut` (src/shortcuts/manager.rs:25-30):
1-based bounded positional lookup. -/
def get_shortcut (l : List Shortcut) (index : Nat) : Option Shortcut :=
  if index = 0 ∨ index > 9 then none
  else (get_shortcuts l).get? (index - 1)

/-- The `find ... touch` part of `touch_shortcut`/`add_shortcut`
(src/shortcuts/manager.rs:35-36,47-49): refresh the last-accessed time of
the first shortcut with the given path. -/
def touchFirst (path : String) (now : Nat) : List Shortcut → List Shortcut
  | [] => []
  | s :: ss =>
    if s.path = path then { s with last_accessed := now } :: ss
    else s :: touchFirst path now ss

/-- `ShortcutManager::add_shortcut` (src/shortcuts/manager.rs:33-43)
restricted to its in-memory effect (the disk save is fire-and-forget):
touch an existing shortcut with the same path, else append a new one. -/
def add_shortcut_list (path : String) (now : Nat)
    (l : List Shortcut) : List Shortcut :=
  if l.any (fun s => s.path = path) then touchFirst path now l
  else l ++ [{ path := path, last_accessed := now, created_at := now }]

/-- `ShortcutManager::touch_shortcut` (src/shortcuts/manager.rs:46-51)
restricted to its in-memory effect. -/
def touch_shortcut_list (path : String) (now : Nat)
    (l : List Shortcut) : List Shortcut :=
  touchFirst path now l

/- ## Path resolution (src/shell/executor.rs) -/

/-- The error taxonomy of the executor (src/shell/executor.rs:8-20). -/
inductive ExecutorError where
  | ExecutionFailed (msg : String)
  | DirectoryNotFound (path : String)
  | NotADirectory (path : String)
  | InvalidPath (msg : String)
  deriving DecidableEq, Repr

deriving instance DecidableEq for Except

/-- The `thiserror` `Display` rendering of an executor error
(src/shell/executor.rs:9-19), as interpolated into scrollback lines. -/
def ExecutorError.render : ExecutorError → String
  | ExecutorError.ExecutionFailed m => "Failed to execute command: " ++ m
  | ExecutorError.DirectoryNotFound p => "Directory not found: " ++ p
  | ExecutorError.NotADirectory p => "Not a directory: " ++ p
  | ExecutorError.InvalidPath m => "Invalid path: " ++ m

/-- Models `PathBuf::join` for string paths: an absolute right-hand side
replaces the base. -/
def joinPath (base rel : String) : String :=
  if strStartsWith rel "/" then rel else base ++ "/" ++ rel

/-- Models the byte slice `&path[2..]` taken after a leading `"~"`
(src/shell/executor.rs:87): `none` models the panic when byte 2 is not a
character boundary. -/
def sliceFromByteTwo (l : List Char) : Option (List Char) :=
  match l with
  | [] => none
  | c1 :: rest =>
    if utf8Len c1 = 1 then
      match rest with
      | [] => some []
      | c2 :: r2 => if utf8Len c2 = 1 then some r2 else none
    else if utf8Len c1 = 2 then some rest
    else none

/-- Embeds `resolve_cd_path` (src/shell/executor.rs:78-113).  The
filesystem and environment are the collaborators `home` (`dirs::home_dir`),
`canonicalize` (`Path::canonicalize`, `none` on failure) and `isDir`
(`Path::is_dir`).  The outer `none` models the byte-slice panic, which no
reachable claim input exercises. -/
def resolve_cd_path (home : Option String)
    (canonicalize : String → Option String) (isDir : String → Bool)
    (path : String) (current_dir : String) :
    Option (Except ExecutorError String) :=
  (if strStartsWith path "~" then
     match home with
     | some h =>
       if path = "~" then some (Except.ok h)
       else
         match sliceFromByteTwo path.data with
         | some rest => some (Except.ok (joinPath h (String.mk rest)))
         | none => none
     | none => some (Except.error (ExecutorError.InvalidPath "Cannot expand ~"))
   else if strStartsWith path "/" then some (Except.ok path)
   else if path = "-" then
     some (Except.error (ExecutorError.InvalidPath "cd - not yet implemented"))
   else some (Except.ok (joinPath current_dir path))).map
    (fun step =>
      match step with
      | Except.error e => Except.error e
      | Except.ok expanded =>
        match canonicalize expanded with
        | none => Except.error (ExecutorError.DirectoryNotFound path)
        | some canonical =>
          if isDir canonical then Except.ok canonical
          else Except.error (ExecutorError.NotADirectory path))

/- ## Session engine (src/app.rs, src/main.rs) -/

/-- Application modes (src/app.rs:15-22). -/
inductive AppMode where
  | Normal
  | NavigationList
  | ShortcutSelection
  deriving DecidableEq, Repr

/-- The session state (src/app.rs:25-59).  The input buffer is kept as its
character sequence with `cursor_pos` the raw index the source maintains;
`gitSent` is the trace of messages sent on the session→worker channel
(`git_tx`). -/
structure App where
  current_dir : String
  history : List String
  history_index : Option Nat
  input : List Char
  cursor_pos : Nat
  output : List String
  mode : AppMode
  navigation_state : NavigationState
  shortcuts : List Shortcut
  selected_shortcut_index : Nat
  should_quit : Bool
  git_status : Option GitStatus
  gitSent : List GitMessage
  deriving DecidableEq, Repr

/-- `App::refresh_git_status` (src/app.rs:93-98): send one
`UpdateStatus{dir, with_fetch}` message to the worker. -/
def App.refresh_git_status (app : App) (with_fetch : Bool) : App :=
  { app with gitSent := app.gitSent ++
      [GitMessage.UpdateStatus app.current_dir with_fetch] }

/-- `App::new` (src/app.rs:63-90): fresh state in `current_dir` with the
loaded shortcuts, then one initial `refresh_git_status(false)`. -/
def App.new (current_dir : String) (shortcuts : List Shortcut) : App :=
  App.refresh_git_status
    { current_dir := current_dir
      history := []
      history_index := none
      input := []
      cursor_pos := 0
      output := []
      mode := AppMode.Normal
      navigation_state := NavigationState.new
      shortcuts := shortcuts
      selected_shortcut_index := 0
      should_quit := false
      git_status := none
      gitSent := [] } false

/-- `App::prompt_string` (src/app.rs:117-187): the concatenated contents of
`prompt_spans` — the working directory with a leading home-directory prefix
abbreviated to `~`, a space, the git segment when a status with a non-empty
branch is present, then `"$ "`. -/
def promptString (home : Option String) (app : App) : String :=
  (match home with
   | some h =>
     if strStartsWith app.current_dir h then
       "~" ++ strDrop app.current_dir h.length
     else app.current_dir
   | none => app.current_dir) ++ " " ++
  (match app.git_status with
   | some g =>
     if g.branch = "" then ""
     else
       g.branch ++ (if g.is_dirty then "*" else "") ++
       (if g.ahead > 0 then " ↑" ++ toString g.ahead else "") ++
       (if g.behind > 0 then " ↓" ++ toString g.behind else "") ++ " "
   | none => "") ++ "$ "

/-- `App::add_output` (src/app.rs:195-197). -/
def App.add_output (app : App) (line : String) : App :=
  { app with output := app.output ++ [line] }

/-- `App::clear_input` (src/app.rs:206-210). -/
def App.clear_input (app : App) : App :=
  { app with input := [], cursor_pos := 0, history_index := none }

/-- `App::add_to_history` (src/app.rs:213-220): append unless blank or a
duplicate of the most recent entry. -/
def App.add_to_history (app : App) (command : String) : App :=
  if trimChars command.data ≠ [] then
    if app.history.getLast? ≠ some command then
      { app with history := app.history ++ [command] }
    else app
  else app

/-- `App::history_prev` (src/app.rs:223-237). -/
def App.history_prev (app : App) : App :=
  if app.history = [] then app
  else
    { app with
      history_index := some (match app.history_index with
        | none => app.history.length - 1
        | some 0 => 0
        | some (i + 1) => i),
      input := (app.history.getD (match app.history_index with
        | none => app.history.length - 1
        | some 0 => 0
        | some (i + 1) => i) "").data,
      cursor_pos := byteLen (app.history.getD (match app.history_index with
        | none => app.history.length - 1
        | some 0 => 0
        | some (i + 1) => i) "").data }

/-- `App::history_next` (src/app.rs:240-255). -/
def App.history_next (app : App) : App :=
  match app.history_index with
  | none => app
  | some i =>
    if i ≥ app.history.length - 1 then
      { app with history_index := none, input := [], cursor_pos := 0 }
    else
      { app with
        history_index := some (i + 1),
        input := (app.history.getD (i + 1) "").data,
        cursor_pos := byteLen (app.history.getD (i + 1) "").data }

/-- `App::insert_char` (src/app.rs:258-261): `String::insert` at byte index
`cursor_pos`, then `cursor_pos += 1`.  `none` models the panic on a
non-boundary index. -/
def App.insert_char (app : App) (c : Char) : Option App :=
  (insertAtByteIdx app.input app.cursor_pos c).map
    (fun l => { app with input := l, cursor_pos := app.cursor_pos + 1 })

/-- `App::delete_char` (src/app.rs:264-269). -/
def App.delete_char (app : App) : Option App :=
  if app.cursor_pos > 0 then
    (removeAtByteIdx app.input (app.cursor_pos - 1)).map
      (fun l => { app with input := l, cursor_pos := app.cursor_pos - 1 })
  else some app

/-- `App::cursor_left` (src/app.rs:272-274). -/
def App.cursor_left (app : App) : App :=
  { app with cursor_pos := app.cursor_pos - 1 }

/-- `App::cursor_right` (src/app.rs:277-281): bounded by `input.len()`,
the byte length. -/
def App.cursor_right (app : App) : App :=
  if app.cursor_pos < byteLen app.input then
    { app with cursor_pos := app.cursor_pos + 1 }
  else app

/-- `App::cursor_home` (src/app.rs:284-286). -/
def App.cursor_home (app : App) : App :=
  { app with cursor_pos := 0 }

/-- `App::cursor_end` (src/app.rs:289-291): `cursor_pos = input.len()`,
the byte length. -/
def App.cursor_end (app : App) : App :=
  { app with cursor_pos := byteLen app.input }

/-- `App::enter_navigation_mode` (src/app.rs:294-298). -/
def App.enter_navigation_mode (app : App)
    (readDir : Option (List DirEntry)) : App :=
  { app with
    mode := AppMode.NavigationList,
    navigation_state :=
      app.navigation_state.start_navigation app.current_dir readDir }

/-- `App::exit_navigation_mode` (src/app.rs:301-303). -/
def App.exit_navigation_mode (app : App) : App :=
  { app with mode := AppMode.Normal }

/-- `App::confirm_navigation` (src/app.rs:306-311). -/
def App.confirm_navigation (app : App) : App :=
  App.exit_navigation_mode
    (match app.navigation_state.get_selected_path with
     | some selected_path => { app with current_dir := selected_path }
     | none => app)

/-- `App::enter_goto_mode` (src/app.rs:314-319). -/
def App.enter_goto_mode (app : App) : App :=
  if app.shortcuts ≠ [] then
    { app with mode := AppMode.ShortcutSelection, selected_shortcut_index := 0 }
  else app

/-- `App::exit_goto_mode` (src/app.rs:322-324). -/
def App.exit_goto_mode (app : App) : App :=
  { app with mode := AppMode.Normal }

/-- `App::confirm_goto` (src/app.rs:342-354): resolve the highlighted
bookmark; adopt it when its path is still a directory (echoing a `cd` line
and touching the bookmark), else report an error line; always return to
Normal.  `isDir` and `now` are the filesystem/clock collaborators. -/
def App.confirm_goto (app : App) (isDir : String → Bool) (now : Nat) : App :=
  App.exit_goto_mode
    (match get_shortcut app.shortcuts (app.selected_shortcut_index + 1) with
     | some sc =>
       if isDir sc.path then
         { (App.add_output app ("cd " ++ sc.path)) with
           current_dir := sc.path,
           shortcuts := touch_shortcut_list sc.path now app.shortcuts }
       else
         App.add_output app ("Error: " ++ sc.path ++ " no longer exists")
     | none => app)

/-- The `Ctrl+digit` bookmark jump of `handle_normal_mode`
(src/main.rs:116-128): the same resolve-and-adopt logic as a picker
confirm, without leaving Normal mode. -/
def App.shortcut_jump (app : App) (digit : Nat) (isDir : String → Bool)
    (now : Nat) : App :=
  match get_shortcut app.shortcuts digit with
  | some sc =>
    if isDir sc.path then
      { (App.add_output app ("cd " ++ sc.path)) with
        current_dir := sc.path,
        shortcuts := touch_shortcut_list sc.path now app.shortcuts }
    else
      App.add_output app ("Error: " ++ sc.path ++ " no longer exists")
  | none => app

/-- The collaborators `execute_input` reaches through: home directory,
path canonicalization, directory test, the filesystem listing used when
the navigator opens, the external shell (stdout lines, stderr lines — or a
launch failure message), and the clock. -/
structure Env where
  home : Option String
  canonicalize : String → Option String
  isDir : String → Bool
  readDir : Option (List DirEntry)
  shellRun : String → String → Except String (List String × List String)
  now : Nat

/-- The three steps `execute_input` performs before dispatching
(src/main.rs:292-295): echo the prompt+input line to the scrollback,
record the line in history, clear the input buffer. -/
def preExecute (env : Env) (app : App) : App :=
  App.clear_input
    ((App.add_output app
      (promptString env.home app ++ String.mk app.input)).add_to_history
      (String.mk app.input))

/-- Embeds `execute_input` (src/main.rs:291-346): echo the prompt+input
line, record history, clear the input, then dispatch on the parsed intent.
`none` models a panic inside `resolve_cd_path` (unreachable for the inputs
considered here). -/
def execute_input (env : Env) (app : App) : Option App :=
  match parse_command (String.mk app.input) with
  | ParsedCommand.Empty => some (preExecute env app)
  | ParsedCommand.Cd path =>
    match resolve_cd_path env.home env.canonicalize env.isDir
        (path.getD "~") app.current_dir with
    | none => none
    | some (Except.ok new_path) =>
      some { preExecute env app with current_dir := new_path }
    | some (Except.error e) =>
      some (App.add_output (preExecute env app) ("cd: " ++ e.render))
  | ParsedCommand.CdList =>
    some (App.enter_navigation_mode (preExecute env app) env.readDir)
  | ParsedCommand.Clear =>
    some { preExecute env app with output := [] }
  | ParsedCommand.Exit =>
    some { preExecute env app with should_quit := true }
  | ParsedCommand.JermSave =>
    some (App.add_output
      { preExecute env app with
        shortcuts := add_shortcut_list app.current_dir env.now app.shortcuts }
      ("Shortcut saved: " ++ app.current_dir))
  | ParsedCommand.JermGoto =>
    some (App.enter_goto_mode (preExecute env app))
  | ParsedCommand.Shell cmd =>
    match env.shellRun cmd app.current_dir with
    | Except.ok (outLines, errLines) =>
      some ((outLines ++ errLines).foldl App.add_output (preExecute env app))
    | Except.error e =>
      some (App.add_output (preExecute env app) ("Error: " ++ e))

/- ## Concrete scenarios used by witnesses and counterexamples -/

/-- A concrete collaborator environment: no home directory, path
resolution fails, the shell produces no output. -/
def plainEnv : Env :=
  { home := none, canonicalize := fun _ => none, isDir := fun _ => false,
    readDir := none, shellRun := fun _ _ => Except.ok ([], []), now := 0 }

/-- A concrete environment in which every path canonicalizes to "/e" and
is a directory, so a change-directory command succeeds. -/
def cdOkEnv : Env :=
  { plainEnv with canonicalize := fun _ => some "/e", isDir := fun _ => true }

/-- A fresh session in "/d" about to execute `cd /e`. -/
def cdOkApp : App :=
  { App.new "/d" [] with input := "cd /e".data, cursor_pos := 5 }

/-- The session after the successful `cd /e`. -/
def cdOkOut : App :=
  (execute_input cdOkEnv cdOkApp).getD (App.new "" [])

/-- A fresh session in "/d" about to execute `cd /nope`, which fails to
resolve under `plainEnv`. -/
def cdFailApp : App :=
  { App.new "/d" [] with input := "cd /nope".data, cursor_pos := 8 }

/-- The session after the failed `cd /nope`. -/
def cdFailOut : App :=
  (execute_input plainEnv cdFailApp).getD (App.new "" [])

/-- The history scenario of §8: from a fresh session, type and execute
"a", "b" and "c" (each keystroke through `insert_char`, each Enter through
`execute_input`). -/
def histScenario : Option App :=
  ((App.new "/d" []).insert_char 'a').bind (fun a1 =>
  (execute_input plainEnv a1).bind (fun a2 =>
  (a2.insert_char 'b').bind (fun b1 =>
  (execute_input plainEnv b1).bind (fun b2 =>
  (b2.insert_char 'c').bind (fun c1 =>
  execute_input plainEnv c1)))))

theorem charWidth_le_two (c : Char) : charWidth c ≤ 2 := by
  unfold charWidth
  repeat' split
  all_goals omega

theorem strWidth_append (a b : List Char) :
    strWidth (a ++ b) = strWidth a + strWidth b := by
  simp [strWidth]

theorem strWidth_all_one (l : List Char) (h : ∀ c ∈ l, charWidth c = 1) :
    strWidth l = l.length := by
  induction l with
  | nil => rfl
  | cons c cs ih =>
    have hc : charWidth c = 1 := h c (by simp)
    have : strWidth cs = cs.length := ih (fun x hx => h x (by simp [hx]))
    simp [strWidth] at this ⊢
    omega

theorem wrapLineAux_join (w : Nat) (l : List Char) :
    ∀ cur cw, (wrapLineAux w l cur cw).flatten = cur ++ l := by
  induction l with
  | nil => intro cur cw; simp [wrapLineAux]
  | cons c cs ih =>
    intro cur cw
    unfold wrapLineAux
    split
    · simp [ih]
    · simp [ih]

theorem wrapLineAux_width (w : Nat) (hw : 2 ≤ w) (l : List Char) :
    ∀ cur cw, strWidth cur = cw → cw ≤ w →
      ∀ row ∈ wrapLineAux w l cur cw, strWidth row ≤ w := by
  induction l with
  | nil =>
    intro cur cw hcur hle row hrow
    simp [wrapLineAux] at hrow
    subst hrow
    omega
  | cons c cs ih =>
    intro cur cw hcur hle row hrow
    have hc2 : charWidth c ≤ 2 := charWidth_le_two c
    unfold wrapLineAux at hrow
    split at hrow
    · rcases List.mem_cons.mp hrow with h | h
      · subst h; omega
      · exact ih [c] (charWidth c) (by simp [strWidth]) (by omega) row h
    · rename_i hfit
      exact ih (cur ++ [c]) (cw + charWidth c)
        (by rw [strWidth_append, hcur]; simp [strWidth])
        (by omega) row hrow

theorem wrapPos_narrow (w : Nat) (hw : 1 ≤ w) (l : List Char)
    (hl : ∀ c ∈ l, charWidth c ≤ 1) :
    ∀ rows cw, cw ≤ w →
      (wrapPos w l rows cw).1 * w + (wrapPos w l rows cw).2
        = rows * w + cw + strWidth l
      ∧ (wrapPos w l rows cw).2 ≤ w := by
  induction l with
  | nil => intro rows cw h; simp [wrapPos, strWidth, h]
  | cons c cs ih =>
    intro rows cw h
    have hc : charWidth c ≤ 1 := hl c (by simp)
    have hcs : ∀ x ∈ cs, charWidth x ≤ 1 := fun x hx => hl x (by simp [hx])
    have hsw : strWidth (c :: cs) = charWidth c + strWidth cs := by
      simp [strWidth]
    unfold wrapPos
    split
    · rename_i hover
      obtain ⟨h1, h2⟩ := ih hcs (rows + 1) (charWidth c) (by omega)
      rw [Nat.succ_mul] at h1
      refine ⟨?_, h2⟩
      omega
    · rename_i hfit
      obtain ⟨h1, h2⟩ := ih hcs rows (cw + charWidth c) (by omega)
      refine ⟨?_, h2⟩
      omega

theorem String.mk_append_mk (a b : List Char) :
    String.mk a ++ String.mk b = String.mk (a ++ b) := rfl

theorem concatTokens_cons (t : Token) (ts : List Token) :
    concatTokens (t :: ts) = t.text ++ concatTokens ts := rfl

theorem consumeQuoted_spec (q : Char) (l : List Char) :
    (consumeQuoted q l).1 ++ (consumeQuoted q l).2 = l := by
  induction l with
  | nil => rfl
  | cons x xs ih =>
    unfold consumeQuoted
    split
    · simp
    · simpa using ih

theorem concatTokens_nil : concatTokens [] = String.mk [] := rfl

theorem tokenizeAux_concat (l : List Char) (ec : Bool) :
    concatTokens (tokenizeAux l ec) = String.mk l := by
  induction l, ec using tokenizeAux.induct <;>
    · try obtain ⟨t, rfl⟩ := List.head?_eq_some_iff.mp (by assumption)
      rw [tokenizeAux]
      simp_all [concatTokens_nil, concatTokens_cons, String.mk_append_mk,
        List.takeWhile_append_dropWhile, consumeQuoted_spec]
      try rfl

/-- C10 (amended): for every logical line and viewport width, wrapping
never drops, duplicates or reorders characters (concatenating the visual
rows in order reproduces the line exactly) for every width ≥ 1; and every
produced row has cumulative display width at most the viewport width
provided the width is at least 2 (at width 1 a double-width character
yields a row of width 2, see the counterexample). -/
theorem c10_wrap_flatten_and_width (line : List Char) (w : Nat) :
    (1 ≤ w → (wrapLine line w).flatten = line) ∧
    (2 ≤ w → ∀ row ∈ wrapLine line w, strWidth row ≤ w) := by
  constructor
  · intro hw
    unfold wrapLine
    rw [if_neg (by omega)]
    simpa using wrapLineAux_join w line [] 0
  · intro hw
    unfold wrapLine
    rw [if_neg (by omega)]
    exact wrapLineAux_width w hw line [] 0 rfl (by omega)

/-- C10, counterexample to the width-bound clause as claimed: at viewport
width 1 (≥ 1), the single double-width character U+4E16 produces the row
`['世']` of display width 2 > 1. -/
theorem c10_wrap_width_counterexample :
    wrapLine ['世'] 1 = [[], ['世']] ∧ strWidth ['世'] = 2 ∧
    ¬(strWidth ['世'] ≤ 1) := by decide

/-- C10, witness: the amended theorem applied at line "hi", width 2. -/
theorem c10_wrap_flatten_and_width_witness :
    (1 ≤ 2 ∧ (wrapLine "hi".data 2).flatten = "hi".data) ∧
    (2 ≤ 2 ∧ ∀ row ∈ wrapLine "hi".data 2, strWidth row ≤ 2) :=
  ⟨⟨by decide, (c10_wrap_flatten_and_width "hi".data 2).1 (by decide)⟩,
   ⟨by decide, (c10_wrap_flatten_and_width "hi".data 2).2 (by decide)⟩⟩

/-- C2 (amended): when no character of the prompt or the input is
double-width — every display width is at most 1, zero-width combining and
control characters included — the floor-division cursor mapping of
`render_terminal` agrees, in both row and column, with the cell at which
the cursor lands under `wrap_line`'s own layout of the prefix before the
cursor.  (With double-width characters present the two can disagree, see
the counterexample.) -/
theorem c2_cursor_row_agrees_unit_width (prompt input : List Char)
    (cursorPos w : Nat) (hw : 1 ≤ w)
    (hp : ∀ c ∈ prompt, charWidth c ≤ 1)
    (hi : ∀ c ∈ input, charWidth c ≤ 1) :
    computedCursorRow prompt input cursorPos w
      = (cursorLanding w (prompt ++ input.take cursorPos)).1 ∧
    computedCursorCol prompt input cursorPos w
      = (cursorLanding w (prompt ++ input.take cursorPos)).2 := by
  have hb : ∀ c ∈ prompt ++ input.take cursorPos, charWidth c ≤ 1 := by
    intro c hc
    rcases List.mem_append.mp hc with h | h
    · exact hp c h
    · exact hi c (List.mem_of_mem_take h)
  obtain ⟨heq, hle⟩ :=
    wrapPos_narrow w hw (prompt ++ input.take cursorPos) hb 0 0 (by omega)
  unfold computedCursorRow computedCursorCol cursorLanding
  rcases hwp : wrapPos w (prompt ++ input.take cursorPos) 0 0 with ⟨r, cw⟩
  rw [hwp] at heq hle
  simp only [Nat.zero_mul, Nat.zero_add] at heq hle
  rw [← strWidth_append, ← heq]
  by_cases hcase : cw + 1 > w
  · have hcww : cw = w := by omega
    rw [if_pos hcase]
    have hrw : r * w + cw = (r + 1) * w := by rw [hcww]; ring
    constructor
    · show (r * w + cw) / w = r + 1
      rw [hrw, Nat.mul_div_cancel _ (by omega)]
    · show (r * w + cw) % w = 0
      rw [hrw, Nat.mul_mod_left]
  · have hlt : cw < w := by omega
    rw [if_neg hcase]
    constructor
    · show (r * w + cw) / w = r
      rw [Nat.add_comm, Nat.mul_comm, Nat.add_mul_div_left _ _ (by omega : 0 < w),
        Nat.div_eq_of_lt hlt, Nat.zero_add]
    · show (r * w + cw) % w = cw
      rw [Nat.add_comm, Nat.mul_comm, Nat.add_mul_mod_self_left,
        Nat.mod_eq_of_lt hlt]

/-- C2, counterexample to the claim as stated (which asserts agreement
"including for lines containing double-width characters"): with prompt
"$ ", input of four U+4E16 characters (width 2 each), cursor at the end
and viewport width 3, the floor-division computation yields row 3, but the
wrapping lays the line out on 5 rows and the cursor lands on row 4. -/
theorem c2_cursor_row_counterexample :
    computedCursorRow "$ ".data "世世世世".data 4 3 = 3 ∧
    (cursorLanding 3 ("$ ".data ++ "世世世世".data.take 4)).1 = 4 ∧
    (wrapLine ("$ ".data ++ "世世世世".data) 3).length = 5 ∧
    (3 : Nat) ≠ 4 := by decide

/-- C2, witness: the amended theorem applied at prompt "$ ", input "ab",
cursor 1, width 3 (all characters of display width 1), and at an input
containing the zero-width combining acute U+0301, cursor 2, width 2. -/
theorem c2_cursor_row_agrees_unit_width_witness :
    (computedCursorRow "$ ".data "ab".data 1 3
      = (cursorLanding 3 ("$ ".data ++ "ab".data.take 1)).1 ∧
    computedCursorCol "$ ".data "ab".data 1 3
      = (cursorLanding 3 ("$ ".data ++ "ab".data.take 1)).2) ∧
    (computedCursorRow "$ ".data ['a', '́', 'b'] 2 2
      = (cursorLanding 2 ("$ ".data ++ ['a', '́', 'b'].take 2)).1 ∧
    computedCursorCol "$ ".data ['a', '́', 'b'] 2 2
      = (cursorLanding 2 ("$ ".data ++ ['a', '́', 'b'].take 2)).2) :=
  ⟨c2_cursor_row_agrees_unit_width "$ ".data "ab".data 1 3 (by decide)
    (by decide) (by decide),
   c2_cursor_row_agrees_unit_width "$ ".data ['a', '́', 'b'] 2 2
    (by decide) (by decide) (by decide)⟩

/-- C5 (confirmed): for every input string, concatenating in order the
text fields of the tokens returned by `tokenize` yields exactly the
original input string. -/
theorem c5_tokenize_roundtrip (s : String) : concatTokens (tokenize s) = s := by
  unfold tokenize
  rw [tokenizeAux_concat]

theorem append_mo_data_getLast? (s : String) :
    (s ++ "mo").data.getLast? = some 'o' := by
  rw [String.data_append]
  rw [show ("mo" : String).data = ['m'] ++ ['o'] from rfl]
  rw [← List.append_assoc]
  exact List.getLast?_concat _

theorem append_one_char_data_getLast? (s : String) (c : Char) :
    (s ++ String.mk [c]).data.getLast? = some c := by
  rw [String.data_append]
  exact List.getLast?_concat _

/-- C4 (amended): the relative "time since access" label, as a function of
the elapsed seconds `t`: "now" under 60s; "`N`m" for 60s ≤ t < 1h with N =
t/60; "`N`h" for 1h ≤ t < 24h; "`N`d" for 1d ≤ t < 7d; "`N`w" for 7d ≤ t <
28d; and "`N`mo" exactly when t ≥ 28 days (not 30: the week bucket ends at
`days/7 < 4`), with N = max(days/30, 1) — in particular 28 and 29 days are
labelled "1mo".  Below 28 days the label is never of the form "`N`mo". -/
theorem c4_time_ago_buckets (t : Nat) :
    (t < 60 → timeAgo t = "now") ∧
    (60 ≤ t → t < 3600 → timeAgo t = toString (t / 60) ++ "m") ∧
    (3600 ≤ t → t < 86400 → timeAgo t = toString (t / 3600) ++ "h") ∧
    (86400 ≤ t → t < 604800 → timeAgo t = toString (t / 86400) ++ "d") ∧
    (604800 ≤ t → t < 2419200 → timeAgo t = toString (t / 604800) ++ "w") ∧
    (2419200 ≤ t → timeAgo t = toString (max (t / 86400 / 30) 1) ++ "mo") ∧
    (t < 2419200 → ∀ n : Nat, timeAgo t ≠ toString n ++ "mo") := by
  have hb1 : t < 60 → timeAgo t = "now" := by
    intro h; unfold timeAgo; rw [if_pos h]
  have hb2 : 60 ≤ t → t < 3600 → timeAgo t = toString (t / 60) ++ "m" := by
    intro h1 h2; unfold timeAgo
    rw [if_neg (by omega), if_pos (by omega)]
  have hb3 : 3600 ≤ t → t < 86400 → timeAgo t = toString (t / 3600) ++ "h" := by
    intro h1 h2; unfold timeAgo
    rw [if_neg (by omega), if_neg (by omega), if_pos (by omega)]
  have hb4 : 86400 ≤ t → t < 604800 → timeAgo t = toString (t / 86400) ++ "d" := by
    intro h1 h2; unfold timeAgo
    rw [if_neg (by omega), if_neg (by omega), if_neg (by omega),
      if_pos (by omega)]
  have hb5 : 604800 ≤ t → t < 2419200 →
      timeAgo t = toString (t / 604800) ++ "w" := by
    intro h1 h2; unfold timeAgo
    rw [if_neg (by omega), if_neg (by omega), if_neg (by omega),
      if_neg (by omega), if_pos (by omega), Nat.div_div_eq_div_mul]
  have hb6 : 2419200 ≤ t →
      timeAgo t = toString (max (t / 86400 / 30) 1) ++ "mo" := by
    intro h1; unfold timeAgo
    rw [if_neg (by omega), if_neg (by omega), if_neg (by omega),
      if_neg (by omega), if_neg (by omega)]
  refine ⟨hb1, hb2, hb3, hb4, hb5, hb6, ?_⟩
  intro hlt n heqn
  have hlast := congrArg (fun s : String => s.data.getLast?) heqn
  simp only at hlast
  rw [append_mo_data_getLast?] at hlast
  rcases Nat.lt_or_ge t 60 with h1 | h1
  · rw [hb1 h1] at hlast
    exact absurd hlast (by decide)
  rcases Nat.lt_or_ge t 3600 with h2 | h2
  · rw [hb2 h1 h2,
      show ("m" : String) = String.mk ['m'] from rfl] at hlast
    rw [append_one_char_data_getLast?] at hlast
    exact absurd hlast (by decide)
  rcases Nat.lt_or_ge t 86400 with h3 | h3
  · rw [hb3 h2 h3,
      show ("h" : String) = String.mk ['h'] from rfl] at hlast
    rw [append_one_char_data_getLast?] at hlast
    exact absurd hlast (by decide)
  rcases Nat.lt_or_ge t 604800 with h4 | h4
  · rw [hb4 h3 h4,
      show ("d" : String) = String.mk ['d'] from rfl] at hlast
    rw [append_one_char_data_getLast?] at hlast
    exact absurd hlast (by decide)
  · rw [hb5 h4 hlt,
      show ("w" : String) = String.mk ['w'] from rfl] at hlast
    rw [append_one_char_data_getLast?] at hlast
    exact absurd hlast (by decide)

/-- C4, counterexample to the claim as stated: an elapsed time of exactly
28 days (2419200 seconds, which is less than 30 days) is labelled "1mo",
contradicting "an elapsed time of 28 or 29 days is not labelled Nmo". -/
theorem c4_time_ago_counterexample :
    timeAgo (28 * 86400) = "1mo" ∧ "1mo" = toString 1 ++ "mo" ∧
    28 * 86400 < 30 * 86400 := by
  refine ⟨by decide, rfl, by decide⟩

/-- C4, witness: the amended theorem applied at 30 seconds and at 28
days. -/
theorem c4_time_ago_buckets_witness :
    ((30 : Nat) < 60 ∧ timeAgo 30 = "now") ∧
    (2419200 ≤ (2419200 : Nat) ∧
      timeAgo 2419200 = toString (max (2419200 / 86400 / 30) 1) ++ "mo") :=
  ⟨⟨by decide, (c4_time_ago_buckets 30).1 (by decide)⟩,
   ⟨by decide, (c4_time_ago_buckets 2419200).2.2.2.2.2.1 (by decide)⟩⟩

theorem selInv_refresh (s : NavigationState) (rd : Option (List DirEntry)) :
    selInv (s.refresh_entries rd) := by
  unfold selInv NavigationState.refresh_entries
  simp only
  constructor
  · intro hlen
    split <;> omega
  · intro hlen
    split <;> omega

theorem selInv_navStep (op : NavOp) (s : NavigationState) (h : selInv s) :
    selInv (navStep op s) := by
  obtain ⟨h1, h2⟩ := h
  cases op with
  | moveUp =>
    simp only [navStep]
    unfold NavigationState.move_up
    split_ifs <;> refine ⟨?_, ?_⟩ <;> dsimp only <;> omega
  | moveDown =>
    simp only [navStep]
    unfold NavigationState.move_down
    split_ifs <;> refine ⟨?_, ?_⟩ <;> dsimp only <;> omega
  | adjustScroll hgt =>
    simp only [navStep]
    unfold NavigationState.adjust_scroll
    split_ifs <;> refine ⟨?_, ?_⟩ <;> dsimp only <;> omega
  | refresh rd =>
    simp only [navStep]
    exact selInv_refresh _ _
  | enterSelected rd =>
    simp only [navStep]
    unfold NavigationState.enter_selected
    cases hget : s.entries.get? s.selected_index with
    | none =>
      simp only [hget]
      exact ⟨h1, h2⟩
    | some e =>
      simp only [hget]
      split
      · exact selInv_refresh _ _
      · exact ⟨h1, h2⟩
  | goUp rd =>
    simp only [navStep]
    unfold NavigationState.go_up
    cases hpar : pathParent s.current_path with
    | none =>
      simp only [hpar]
      exact ⟨h1, h2⟩
    | some par =>
      simp only [hpar]
      exact selInv_refresh _ _

/-- C6 (confirmed): starting from any browser state satisfying the §3
selection invariant (in particular any freshly listed one), every finite
sequence of move_up / move_down / enter_selected / go_up / refresh /
adjust_scroll operations preserves it — the selected index stays within
`[0, entries.length − 1]`, or is 0 on an empty list — and immediately
after any `adjust_scroll visible_height` call with `visible_height ≥ 1`,
`scroll_offset ≤ selected_index ≤ scroll_offset + visible_height − 1`. -/
theorem c6_browser_bounds :
    (∀ (s : NavigationState) (ops : List NavOp), selInv s →
      selInv (ops.foldl (fun t o => navStep o t) s)) ∧
    (∀ (s : NavigationState) (h : Nat), 1 ≤ h →
      (s.adjust_scroll h).scroll_offset ≤ (s.adjust_scroll h).selected_index ∧
      (s.adjust_scroll h).selected_index
        ≤ (s.adjust_scroll h).scroll_offset + h - 1) := by
  constructor
  · intro s ops
    induction ops generalizing s with
    | nil => intro h; exact h
    | cons op rest ih =>
      intro h
      exact ih _ (selInv_navStep op s h)
  · intro s h hh
    unfold NavigationState.adjust_scroll
    split_ifs <;> constructor <;> (try dsimp only) <;> omega

/-- C6, witness: the invariant theorem applied to a two-entry browser
state and three operations, and the scroll bound applied at
`visible_height = 2`. -/
theorem c6_browser_bounds_witness :
    selInv ([NavOp.moveDown, NavOp.moveUp, NavOp.adjustScroll 2,
        NavOp.refresh none].foldl (fun t o => navStep o t)
        { current_path := "/x",
          entries := [{ name := "..", path := "/", is_dir := true },
                      { name := "a", path := "/x/a", is_dir := true }],
          selected_index := 1, scroll_offset := 0 }) ∧
    ((NavigationState.new.adjust_scroll 2).scroll_offset
        ≤ (NavigationState.new.adjust_scroll 2).selected_index ∧
      (NavigationState.new.adjust_scroll 2).selected_index
        ≤ (NavigationState.new.adjust_scroll 2).scroll_offset + 2 - 1) :=
  ⟨c6_browser_bounds.1 _ _ (by decide),
   c6_browser_bounds.2 NavigationState.new 2 (by decide)⟩

/-- C1 (code bug): the claimed invariant "edit cursor ∈ [0, input buffer
length] in character units" is broken by the code, which maintains
`cursor_pos` in bytes in `App` but reads it as a character index in
`render_terminal`.  Concretely: from a fresh session, inserting 'é'
(2 bytes, 1 character) and pressing End sets `cursor_pos` to the byte
length 2 while the buffer holds 1 character — and inserting a second
character right after the 'é' panics (`String::insert` at a non-boundary
byte index), modelled here by `none`. -/
theorem c1_cursor_char_index_violation :
    (((App.new "/d" []).insert_char 'é').map
        (fun a => (a.cursor_end.cursor_pos, a.cursor_end.input.length))
      = some (2, 1)) ∧
    ¬((2 : Nat) ≤ 1) ∧
    (((App.new "/d" []).insert_char 'é').bind
        (fun a => a.insert_char 'x') = none) := by decide

/-- C8 (confirmed): from an empty history and empty input, after typing
and executing "a", "b", "c", three history-previous operations yield "c",
"b", "a"; a fourth stays at "a"; and one history-next from there returns
to "b". -/
theorem c8_history_navigation :
    histScenario.map (fun s =>
      (String.mk s.history_prev.input,
       String.mk s.history_prev.history_prev.input,
       String.mk s.history_prev.history_prev.history_prev.input,
       String.mk
         s.history_prev.history_prev.history_prev.history_prev.input,
       String.mk
         s.history_prev.history_prev.history_prev.history_next.input))
      = some ("c", "b", "a", "a", "b") := by decide

theorem gitSent_add_output (app : App) (l : String) :
    (App.add_output app l).gitSent = app.gitSent := rfl

theorem gitSent_preExecute (env : Env) (app : App) :
    (preExecute env app).gitSent = app.gitSent := by
  unfold preExecute App.clear_input App.add_to_history App.add_output
  split_ifs <;> rfl

theorem gitSent_foldl_add_output (ls : List String) (a : App) :
    (ls.foldl App.add_output a).gitSent = a.gitSent := by
  induction ls generalizing a with
  | nil => rfl
  | cons x xs ih =>
    rw [List.foldl_cons, ih]
    rfl

/-- C3 (amended): exactly one `UpdateStatus{dir, alsoSync=false}` message
is sent to the status worker, at startup (`App::new`); none of the
operations that change the working directory — a change-directory command
(or any other dispatch of `execute_input`), navigator confirm,
bookmark-picker confirm, or a numeric bookmark shortcut — sends any
message to the worker. -/
theorem c3_request_update_startup_only :
    (∀ (dir : String) (shortcuts : List Shortcut),
      (App.new dir shortcuts).gitSent
        = [GitMessage.UpdateStatus dir false]) ∧
    (∀ (env : Env) (app a' : App), execute_input env app = some a' →
      a'.gitSent = app.gitSent) ∧
    (∀ app : App, (App.confirm_navigation app).gitSent = app.gitSent) ∧
    (∀ (app : App) (isDir : String → Bool) (now : Nat),
      (App.confirm_goto app isDir now).gitSent = app.gitSent) ∧
    (∀ (app : App) (d : Nat) (isDir : String → Bool) (now : Nat),
      (App.shortcut_jump app d isDir now).gitSent = app.gitSent) := by
  refine ⟨?_, ?_, ?_, ?_, ?_⟩
  · intro dir shortcuts; rfl
  · intro env app a' h
    unfold execute_input at h
    split at h <;> try split at h
    all_goals
      first
      | exact Option.noConfusion h
      | (injection h with hx; subst hx;
         first
         | exact gitSent_preExecute env app
         | (rw [gitSent_foldl_add_output]; exact gitSent_preExecute env app)
         | (rw [gitSent_add_output]; exact gitSent_preExecute env app)
         | (unfold App.enter_goto_mode; split_ifs <;>
             exact gitSent_preExecute env app))
  · intro app
    unfold App.confirm_navigation App.exit_navigation_mode
    rcases hsel : app.navigation_state.get_selected_path with _ | p <;>
      simp only [hsel]
  · intro app isDir now
    unfold App.confirm_goto App.exit_goto_mode App.add_output
    rcases hg : get_shortcut app.shortcuts (app.selected_shortcut_index + 1)
        with _ | sc <;> simp only [hg] <;> (try split_ifs) <;> rfl
  · intro app d isDir now
    unfold App.shortcut_jump App.add_output
    rcases hg : get_shortcut app.shortcuts d with _ | sc <;>
      simp only [hg] <;> (try split_ifs) <;> rfl

/-- C3, counterexample to the claim as stated: executing `cd /e` (in an
environment where it succeeds) changes the working directory, yet the
trace of messages sent to the status worker is unchanged — no
`UpdateStatus` message is sent on a change of working directory. -/
theorem c3_request_update_counterexample :
    execute_input cdOkEnv cdOkApp = some cdOkOut ∧
    cdOkOut.current_dir ≠ cdOkApp.current_dir ∧
    cdOkOut.gitSent = cdOkApp.gitSent := by decide

/-- C3, witness: the amended theorem applied to a fresh session in "/d"
and to the concrete successful `cd /e` execution. -/
theorem c3_request_update_startup_only_witness :
    (App.new "/d" []).gitSent = [GitMessage.UpdateStatus "/d" false] ∧
    cdOkOut.gitSent = cdOkApp.gitSent :=
  ⟨c3_request_update_startup_only.1 "/d" [],
   c3_request_update_startup_only.2.1 cdOkEnv cdOkApp cdOkOut (by decide)⟩

theorem preExecute_fields (env : Env) (app : App) :
    (preExecute env app).current_dir = app.current_dir ∧
    (preExecute env app).output
      = app.output ++ [promptString env.home app ++ String.mk app.input] ∧
    (preExecute env app).mode = app.mode ∧
    (preExecute env app).navigation_state = app.navigation_state ∧
    (preExecute env app).shortcuts = app.shortcuts ∧
    (preExecute env app).gitSent = app.gitSent ∧
    (preExecute env app).should_quit = app.should_quit ∧
    (preExecute env app).git_status = app.git_status ∧
    (preExecute env app).history
      = (App.add_to_history app (String.mk app.input)).history ∧
    (preExecute env app).input = [] ∧
    (preExecute env app).cursor_pos = 0 ∧
    (preExecute env app).history_index = none := by
  unfold preExecute App.clear_input App.add_output App.add_to_history
  split_ifs <;> simp_all

/-- C9 (confirmed): when a change-directory command fails path resolution
(in particular for the unsupported literal "-"), exactly one error line
prefixed with the subcommand name "cd" is appended to the scrollback
beyond the universal command echo, and the rest of the session state — in
particular the working directory — is exactly what it is after any
executed command (history gains the line, the input clears); when
resolution succeeds, the working directory is replaced by the resolved
path. -/
theorem c9_cd_error_handling :
    (∀ (env : Env) (app : App) (p : Option String) (e : ExecutorError)
        (a' : App),
      parse_command (String.mk app.input) = ParsedCommand.Cd p →
      resolve_cd_path env.home env.canonicalize env.isDir (p.getD "~")
        app.current_dir = some (Except.error e) →
      execute_input env app = some a' →
      a'.current_dir = app.current_dir ∧
      a'.output = app.output ++
        [promptString env.home app ++ String.mk app.input,
         "cd: " ++ e.render] ∧
      strStartsWith ("cd: " ++ e.render) "cd" = true ∧
      a'.mode = app.mode ∧
      a'.navigation_state = app.navigation_state ∧
      a'.shortcuts = app.shortcuts ∧
      a'.gitSent = app.gitSent ∧
      a'.should_quit = app.should_quit ∧
      a'.git_status = app.git_status ∧
      a'.history = (App.add_to_history app (String.mk app.input)).history ∧
      a'.input = [] ∧ a'.cursor_pos = 0 ∧ a'.history_index = none) ∧
    (∀ (env : Env) (app : App) (p : Option String) (newPath : String)
        (a' : App),
      parse_command (String.mk app.input) = ParsedCommand.Cd p →
      resolve_cd_path env.home env.canonicalize env.isDir (p.getD "~")
        app.current_dir = some (Except.ok newPath) →
      execute_input env app = some a' →
      a'.current_dir = newPath ∧
      a'.output = app.output ++
        [promptString env.home app ++ String.mk app.input] ∧
      a'.mode = app.mode ∧
      a'.navigation_state = app.navigation_state ∧
      a'.shortcuts = app.shortcuts ∧
      a'.gitSent = app.gitSent ∧
      a'.should_quit = app.should_quit ∧
      a'.git_status = app.git_status ∧
      a'.history = (App.add_to_history app (String.mk app.input)).history ∧
      a'.input = [] ∧ a'.cursor_pos = 0 ∧ a'.history_index = none) ∧
    (∀ (home : Option String) (canonicalize : String → Option String)
        (isDir : String → Bool) (current_dir : String),
      resolve_cd_path home canonicalize isDir "-" current_dir
        = some (Except.error
            (ExecutorError.InvalidPath "cd - not yet implemented"))) := by
  refine ⟨?_, ?_, ?_⟩
  · intro env app p e a' hparse hres hex
    unfold execute_input at hex
    simp only [hparse, hres] at hex
    injection hex with hx
    subst hx
    obtain ⟨f1, f2, f3, f4, f5, f6, f7, f8, f9, f10, f11, f12⟩ :=
      preExecute_fields env app
    refine ⟨f1, ?_, ?_, f3, f4, f5, f6, f7, f8, f9, f10, f11, f12⟩
    · show (preExecute env app).output ++ _ = _
      rw [f2, List.append_assoc]
      rfl
    · unfold strStartsWith
      rw [String.data_append]
      rw [show ("cd: " : String).data = 'c' :: 'd' :: ':' :: ' ' :: [] from rfl]
      simp [List.isPrefixOf]
  · intro env app p newPath a' hparse hres hex
    unfold execute_input at hex
    simp only [hparse, hres] at hex
    injection hex with hx
    subst hx
    obtain ⟨f1, f2, f3, f4, f5, f6, f7, f8, f9, f10, f11, f12⟩ :=
      preExecute_fields env app
    exact ⟨rfl, f2, f3, f4, f5, f6, f7, f8, f9, f10, f11, f12⟩
  · intro home canonicalize isDir current_dir
    unfold resolve_cd_path
    rw [if_neg (by decide), if_neg (by decide), if_pos rfl]
    rfl

/-- C9, witness: the theorem applied to the concrete failing `cd /nope`
(the environment resolves no path), checking the two headline
conclusions. -/
theorem c9_cd_error_handling_witness :
    execute_input plainEnv cdFailApp = some cdFailOut ∧
    cdFailOut.current_dir = cdFailApp.current_dir ∧
    cdFailOut.output = cdFailApp.output ++
      [promptString plainEnv.home cdFailApp ++ String.mk cdFailApp.input,
       "cd: " ++ (ExecutorError.DirectoryNotFound "/nope").render] := by
  refine ⟨by decide, ?_, ?_⟩
  · exact (c9_cd_error_handling.1 plainEnv cdFailApp (some "/nope")
      (ExecutorError.DirectoryNotFound "/nope") cdFailOut (by decide)
      (by decide) (by decide)).1
  · exact (c9_cd_error_handling.1 plainEnv cdFailApp (some "/nope")
      (ExecutorError.DirectoryNotFound "/nope") cdFailOut (by decide)
      (by decide) (by decide)).2.1

theorem trimChars_eq_nil_of_ws (l : List Char)
    (h : ∀ c ∈ l, isWhitespaceChar c) : trimChars l = [] := by
  unfold trimChars
  rw [List.dropWhile_eq_nil_iff.mpr h]
  rfl

/-- C7 (confirmed): `parse_command` is a total Lean function, so every
input yields exactly one intent; "cd -list" and "cd --list" map to the
navigator intent; the empty string and every whitespace-only string map to
Empty; and a "jerm" head with any subcommand other than "save" or "goto"
maps to Shell carrying the full trimmed line verbatim. -/
theorem c7_classifier :
    parse_command "cd -list" = ParsedCommand.CdList ∧
    parse_command "cd --list" = ParsedCommand.CdList ∧
    parse_command "" = ParsedCommand.Empty ∧
    (∀ s : String, (∀ c ∈ s.data, isWhitespaceChar c) →
      parse_command s = ParsedCommand.Empty) ∧
    (∀ s : String,
      String.mk (splitHead (trimChars s.data)).1 = "jerm" →
      ((splitHead (trimChars s.data)).2.map
        (fun a => String.mk (trimChars a))) ≠ some "save" →
      ((splitHead (trimChars s.data)).2.map
        (fun a => String.mk (trimChars a))) ≠ some "goto" →
      parse_command s = ParsedCommand.Shell (String.mk (trimChars s.data))) := by
  refine ⟨by decide, by decide, by decide, ?_, ?_⟩
  · intro s h
    unfold parse_command
    rw [if_pos (trimChars_eq_nil_of_ws _ h)]
  · intro s hhead hsave hgoto
    have hne : trimChars s.data ≠ [] := by
      intro h0
      rw [h0] at hhead
      exact absurd hhead (by decide)
    unfold parse_command
    rw [if_neg hne]
    unfold parseTrimmed
    rw [hhead]
    unfold dispatchCommand
    rw [if_neg (by decide), if_neg (by decide), if_neg (by decide),
      if_pos rfl]
    rcases harg : ((splitHead (trimChars s.data)).2.map
        (fun a => String.mk (trimChars a))) with _ | a
    · rfl
    · rw [harg] at hsave hgoto
      dsimp only
      rw [if_neg (fun h => hsave (by rw [h])),
        if_neg (fun h => hgoto (by rw [h]))]

/-- C7, witness: the whitespace-only clause applied at "   " and the
jerm-fallthrough clause applied at "jerm foo". -/
theorem c7_classifier_witness :
    parse_command "   " = ParsedCommand.Empty ∧
    parse_command "jerm foo" = ParsedCommand.Shell "jerm foo" := by
  constructor
  · exact c7_classifier.2.2.2.1 "   " (by decide)
  · have h := c7_classifier.2.2.2.2 "jerm foo" (by decide) (by decide)
      (by decide)
    rw [show String.mk (trimChars ("jerm foo" : String).data) = "jerm foo"
      from by decide] at h
    exact h

end JermTui
